import Mathlib

/-!
Shallow embedding of the task/tag API of the repository (worker/index.ts and
the drizzle DDL), together with theorems settling the specification's claims
about it.

Modelling conventions:
  * the database is a record of three tables (`task`, `tag`, `task_tag`),
    each a list of rows in insertion order;
  * each HTTP handler becomes a function of the current database, the
    authenticated user (`Option String`, `none` = no valid session), its
    route/query/body parameters, and — where the handler calls
    `crypto.randomUUID()` or `new Date()` — an explicit fresh id / timestamp;
  * mutating handlers return the new database together with the response;
    read-only handlers return only the response;
  * SQL inner joins are modelled as nested-loop joins (`flatMap` over
    `filter`), which matches relational semantics and row order for the
    small scans involved;
  * body validation (`zValidator` with the zod schemas) is a boolean check
    on an already-typed body: the only value-level constraints in the
    schemas are the `min(1)` length bounds on `title` and tag `name`.
    Crucially, `zValidator` runs as middleware *before* the handler body,
    hence before the session check;
  * the repository carries two conflicting DDLs for `task_tag`:
    `drizzle/0003_create_tags.sql` declares its foreign keys
    `ON DELETE NO ACTION`, while the other `CREATE TABLE IF NOT EXISTS`
    variant declares `ON DELETE cascade`.  `deleteTask` therefore takes a
    `cascade : Bool` parameter selecting the DDL variant.
-/

deriving instance DecidableEq for Except

namespace TM

inductive TaskStatus
  | todo
  | in_progress
  | completed
deriving DecidableEq, Repr

inductive TaskPriority
  | low
  | medium
  | high
deriving DecidableEq, Repr

/-- A row of the `task` table. -/
structure Task where
  id : String
  title : String
  description : Option String
  status : TaskStatus
  priority : TaskPriority
  userId : String
  createdAt : Nat
  updatedAt : Nat
deriving DecidableEq, Repr

/-- A row of the `tag` table. -/
structure Tag where
  id : String
  name : String
  userId : String
  createdAt : Nat
deriving DecidableEq, Repr

/-- A row of the `task_tag` join table. -/
structure TaskTagRow where
  taskId : String
  tagId : String
deriving DecidableEq, Repr

/-- The relational state: the three tables, each in row-insertion order. -/
structure DB where
  tasks : List Task
  tags : List Tag
  taskTags : List TaskTagRow
deriving DecidableEq, Repr

/-- The `{id, name}` projection of a tag embedded in a task response. -/
structure TagRef where
  id : String
  name : String
deriving DecidableEq, Repr

/-- A task response object: the task row spread together with its `tags` array
(`{...t, tags: tagsForTask}` in the handlers). -/
structure TaskWithTags where
  task : Task
  tags : List TagRef
deriving DecidableEq, Repr

inductive ApiError
  | unauthorized
  | notFound
  | validationError
deriving DecidableEq, Repr

/-- Body of `POST /api/tasks` as parsed by `createTaskSchema`. -/
structure CreateTaskBody where
  title : String
  description : Option String
  status : Option TaskStatus
  priority : Option TaskPriority
  tags : Option (List String)
deriving DecidableEq, Repr

/-- `createTaskSchema` value-level validation: `title: z.string().min(1)`. -/
def CreateTaskBody.isValid (b : CreateTaskBody) : Bool :=
  b.title.length ≥ 1

/-- Body of `PATCH /api/tasks/:id` as parsed by `updateTaskSchema`. -/
structure UpdateTaskBody where
  title : Option String
  description : Option String
  status : Option TaskStatus
  priority : Option TaskPriority
  tags : Option (List String)
deriving DecidableEq, Repr

/-- `updateTaskSchema` value-level validation: `title: z.string().min(1).optional()`. -/
def UpdateTaskBody.isValid (b : UpdateTaskBody) : Bool :=
  match b.title with
  | some t => t.length ≥ 1
  | none => true

/-- The tag-embedding query the handlers repeat (worker/index.ts lines 71-79,
137-145 and 189-197):
`select from taskTag innerJoin tag on taskTag.tagId = tag.id
 where taskTag.taskId = t` projected to `{id, name}`. -/
def tagsForTask (db : DB) (tid : String) : List TagRef :=
  (db.taskTags.filter (fun r => r.taskId == tid)).flatMap (fun r =>
    (db.tags.filter (fun g => g.id == r.tagId)).map (fun g => { id := g.id, name := g.name }))

/-- `GET /api/tasks` (worker/index.ts lines 48-85).  `tagQuery` is
`c.req.query("tag")`: `none` when absent, `some ""` for `?tag=`.  The handler
tests it with JS truthiness (`if (tagFilter)`), so the empty string takes the
unfiltered branch. -/
def getTasks (db : DB) (sessionUser : Option String) (tagQuery : Option String) :
    Except ApiError (List TaskWithTags) :=
  match sessionUser with
  | none => .error .unauthorized
  | some uid =>
    let tasks : List Task :=
      match tagQuery with
      | some tf =>
        if tf.isEmpty then
          db.tasks.filter (fun t => t.userId == uid)
        else
          db.tasks.flatMap (fun t =>
            (db.taskTags.filter (fun r =>
              t.id == r.taskId && t.userId == uid && r.tagId == tf)).map (fun _ => t))
      | none => db.tasks.filter (fun t => t.userId == uid)
    .ok (tasks.map (fun t => { task := t, tags := tagsForTask db t.id }))

/-- `GET /api/tasks/:id` (worker/index.ts lines 87-106).  Note: the handler
returns the bare task row (`c.json({ task: foundTask })`); it performs no
tag-embedding query. -/
def getTaskById (db : DB) (sessionUser : Option String) (taskId : String) :
    Except ApiError Task :=
  match sessionUser with
  | none => .error .unauthorized
  | some uid =>
    match (db.tasks.filter (fun t => t.id == taskId && t.userId == uid)).head? with
    | none => .error .notFound
    | some t => .ok t

/-- `POST /api/tasks` (worker/index.ts lines 108-148).  `zValidator` runs
before the session check.  `newId` models `crypto.randomUUID()`, `now` models
`new Date()`.  The `task_tag` inserts are guarded by
`body.tags && Array.isArray(body.tags) && body.tags.length`. -/
def postTasks (db : DB) (sessionUser : Option String) (body : CreateTaskBody)
    (newId : String) (now : Nat) : DB × Except ApiError TaskWithTags :=
  if !body.isValid then (db, .error .validationError)
  else
    match sessionUser with
    | none => (db, .error .unauthorized)
    | some uid =>
      let newTask : Task :=
        { id := newId
          title := body.title
          description := body.description
          status := body.status.getD .todo
          priority := body.priority.getD .medium
          userId := uid
          createdAt := now
          updatedAt := now }
      let db1 : DB := { db with tasks := db.tasks ++ [newTask] }
      let db2 : DB :=
        match body.tags with
        | some tagIds =>
          if tagIds.length != 0 then
            { db1 with taskTags :=
                db1.taskTags ++ tagIds.map (fun g => { taskId := newId, tagId := g }) }
          else db1
        | none => db1
      (db2, .ok { task := newTask, tags := tagsForTask db2 newId })

/-- The effect on one task row of the `updateData` object the PATCH handler
builds (worker/index.ts lines 170-179): `updatedAt` is always set to the
request time; `title`/`description`/`status`/`priority` are overwritten only
when supplied (`!== undefined`); `id`, `userId` and `createdAt` are never part
of `updateData`. -/
def applyUpdateData (body : UpdateTaskBody) (now : Nat) (t : Task) : Task :=
  { t with
    title := body.title.getD t.title
    description := match body.description with
      | some d => some d
      | none => t.description
    status := body.status.getD t.status
    priority := body.priority.getD t.priority
    updatedAt := now }

/-- `PATCH /api/tasks/:id` (worker/index.ts lines 150-200).  `zValidator` runs
before the session check.  The update statement filters by `task.id` only; the
tag replace (`if (body.tags)`) fires for any supplied array, including `[]`,
because an empty array is JS-truthy. -/
def patchTask (db : DB) (sessionUser : Option String) (taskId : String)
    (body : UpdateTaskBody) (now : Nat) : DB × Except ApiError TaskWithTags :=
  if !body.isValid then (db, .error .validationError)
  else
    match sessionUser with
    | none => (db, .error .unauthorized)
    | some uid =>
      match (db.tasks.filter (fun t => t.id == taskId && t.userId == uid)).head? with
      | none => (db, .error .notFound)
      | some _ =>
        let db1 : DB :=
          { db with tasks := db.tasks.map (fun t =>
              if t.id == taskId then applyUpdateData body now t else t) }
        let db2 : DB :=
          match body.tags with
          | some tagIds =>
            { db1 with taskTags :=
                (db1.taskTags.filter (fun r => !(r.taskId == taskId))) ++
                  tagIds.map (fun g => { taskId := taskId, tagId := g }) }
          | none => db1
        match (db2.tasks.filter (fun t => t.id == taskId)).head? with
        | some tk => (db2, .ok { task := tk, tags := tagsForTask db2 taskId })
        | none => (db2, .error .notFound)

/-- `DELETE /api/tasks/:id` (worker/index.ts lines 231-252).  The handler
deletes only the task row; what happens to the `task_tag` rows depends on the
DDL variant: `cascade = true` models the `ON DELETE cascade` variant,
`cascade = false` models `drizzle/0003_create_tags.sql` (`ON DELETE NO
ACTION`), under which the join rows survive. -/
def deleteTask (cascade : Bool) (db : DB) (sessionUser : Option String) (taskId : String) :
    DB × Except ApiError Unit :=
  match sessionUser with
  | none => (db, .error .unauthorized)
  | some uid =>
    match (db.tasks.filter (fun t => t.id == taskId && t.userId == uid)).head? with
    | none => (db, .error .notFound)
    | some _ =>
      let db1 : DB := { db with tasks := db.tasks.filter (fun t => !(t.id == taskId)) }
      let db2 : DB :=
        if cascade then
          { db1 with taskTags := db1.taskTags.filter (fun r => !(r.taskId == taskId)) }
        else db1
      (db2, .ok ())

/-- `GET /api/tags` (worker/index.ts lines 203-209). -/
def getTags (db : DB) (sessionUser : Option String) : Except ApiError (List Tag) :=
  match sessionUser with
  | none => .error .unauthorized
  | some uid => .ok (db.tags.filter (fun g => g.userId == uid))

/-- `POST /api/tags` (worker/index.ts lines 211-229); validation is
`name: z.string().min(1)` and runs before the session check. -/
def postTag (db : DB) (sessionUser : Option String) (name : String)
    (newId : String) (now : Nat) : DB × Except ApiError Tag :=
  if name.length < 1 then (db, .error .validationError)
  else
    match sessionUser with
    | none => (db, .error .unauthorized)
    | some uid =>
      let newTag : Tag := { id := newId, name := name, userId := uid, createdAt := now }
      ({ db with tags := db.tags ++ [newTag] }, .ok newTag)

/-- Specification-side description of "tag joined to a task": some `task_tag`
row links the task to a `tag` row, and the reference is that tag's
`{id, name}` projection.  Used to compare the handlers' embedded `tags`
arrays against the tables. -/
def JoinedTag (db : DB) (tid : String) (ref : TagRef) : Prop :=
  ∃ r ∈ db.taskTags, r.taskId = tid ∧ ∃ g ∈ db.tags, g.id = r.tagId ∧ ref = ⟨g.id, g.name⟩

/-! ### Concrete fixtures used by counterexamples, bug evaluations and witnesses -/

/-- A task of user `u`. -/
def tkFix : Task := ⟨"t", "Buy milk", none, .todo, .medium, "u", 0, 0⟩

/-- A database of user `u` holding one task tagged `g1`, with a second tag
`g2` available. -/
def dbFix : DB := ⟨[tkFix], [⟨"g1", "one", "u", 0⟩, ⟨"g2", "two", "u", 0⟩], [⟨"t", "g1"⟩]⟩

/-- `dbFix` after `PATCH /tasks/t` with body `{tags: ["g2"]}` at time 5. -/
def dbFixPatched : DB :=
  (patchTask dbFix (some "u") "t" ⟨none, none, none, none, some ["g2"]⟩ 5).1

/-- A second single-task database (user `u`, task `t2` tagged `g`). -/
def dbFix2 : DB :=
  ⟨[⟨"t2", "Write report", none, .todo, .medium, "u", 0, 0⟩], [⟨"g", "work", "u", 0⟩],
    [⟨"t2", "g"⟩]⟩

/-- State after user `u` creates a task with the duplicated tag list
`["T","T"]` (`POST /tasks` with `tags: ["T","T"]`). -/
def dbFixDup : DB :=
  (postTasks ⟨[], [⟨"T", "urgent", "u", 0⟩], []⟩ (some "u")
    ⟨"a", none, none, none, some ["T", "T"]⟩ "n" 3).1

/-- A database of user `u` with one task `t5` carrying one association. -/
def dbFix5 : DB := ⟨[⟨"t5", "a", none, .todo, .medium, "u", 0, 0⟩], [⟨"T5", "x", "u", 0⟩],
  [⟨"t5", "T5"⟩]⟩

/-- User `B` owns task `tb`; user `A` owns the tag `gA` named `"secret"`. -/
def dbFixAB : DB := ⟨[⟨"tb", "B task", none, .todo, .medium, "B", 0, 0⟩],
  [⟨"gA", "secret", "A", 0⟩], []⟩

/-- `dbFixAB` after user `B` runs `PATCH /tasks/tb` with `{tags: ["gA"]}`,
attaching user `A`'s tag to `B`'s own task. -/
def dbFixABPatched : DB :=
  (patchTask dbFixAB (some "B") "tb" ⟨none, none, none, none, some ["gA"]⟩ 1).1

/-! ### Generic list helper lemmas -/

/-- `filter` commutes with a `map` that does not disturb the predicate. -/
theorem filter_map_comm {α : Type} (f : α → α) (p : α → Bool) (l : List α)
    (h : ∀ a, p (f a) = p a) : (l.map f).filter p = (l.filter p).map f := by
  induction l with
  | nil => rfl
  | cons x xs ih =>
    simp only [List.map_cons, List.filter_cons, h, ih]
    cases hx : p x <;> simp

/-- Keeping an element exactly when a boolean test holds, as a `flatMap`, is a
`filter`. -/
theorem flatMap_ite_singleton {α : Type} (l : List α) (p : α → Bool) :
    l.flatMap (fun g => if p g then [g] else []) = l.filter p := by
  induction l with
  | nil => rfl
  | cons x xs ih =>
    simp only [List.flatMap_cons, List.filter_cons, ih]
    cases hx : p x <;> simp

/-- With distinct tag ids (the `id TEXT PRIMARY KEY` constraint), scanning the
`tag` table for one id yields that one id when present and nothing
otherwise. -/
theorem filter_tagId_of_nodup (l : List Tag) (g : String)
    (hnd : (l.map Tag.id).Nodup) :
    (l.filter (fun t => t.id == g)).map (fun t => t.id) =
      if l.any (fun t => t.id == g) then [g] else [] := by
  induction l with
  | nil => rfl
  | cons t ts ih =>
    simp only [List.map_cons, List.nodup_cons] at hnd
    by_cases hg : t.id = g
    · have hnil : ts.filter (fun a => a.id == g) = [] := by
        refine List.filter_eq_nil_iff.mpr (fun a ha hpa => hnd.1 ?_)
        have ha' : a.id = g := by simpa using hpa
        exact hg ▸ ha' ▸ List.mem_map_of_mem Tag.id ha
      simp [List.filter_cons, List.any_cons, hg, hnil]
    · have ht : (t.id == g) = false := by simpa using hg
      simp only [List.filter_cons, List.any_cons, ht, Bool.false_or, if_neg]
      simpa using ih hnd.2

/-- Membership in the handlers' tag-embedding query, characterised against the
`task_tag` and `tag` tables. -/
theorem mem_tagsForTask (db : DB) (tid : String) (ref : TagRef) :
    ref ∈ tagsForTask db tid ↔ JoinedTag db tid ref := by
  simp only [tagsForTask, JoinedTag, List.mem_flatMap, List.mem_filter, List.mem_map]
  constructor
  · rintro ⟨r, ⟨hr, hrt⟩, g, ⟨hg, hgid⟩, href⟩
    exact ⟨r, hr, by simpa using hrt, g, hg, by simpa using hgid, href.symm⟩
  · rintro ⟨r, hr, hrt, g, hg, hgid, href⟩
    exact ⟨r, ⟨hr, by simpa using hrt⟩, g, ⟨hg, by simpa using hgid⟩, href.symm⟩

/-- Mapping a projection over a `flatMap` whose pieces each project to a
filtered singleton yields a `filter`. -/
theorem flatMap_map_eq_filter {α β : Type} (L : List α) (F : α → List β) (h : β → α)
    (p : α → Bool) (hk : ∀ g ∈ L, (F g).map h = if p g then [g] else []) :
    (L.flatMap F).map h = L.filter p := by
  induction L with
  | nil => rfl
  | cons x xs ih =>
    rw [List.flatMap_cons, List.map_append, hk x (by simp),
      ih (fun g hg => hk g (List.mem_cons_of_mem x hg)), List.filter_cons]
    cases hx : p x <;> simp

/-- Applying the same `updateData` twice is the same as applying it once at the
later time: every supplied field is overwritten both times, every unsupplied
field is preserved both times. -/
theorem applyUpdateData_idem (body : UpdateTaskBody) (t1 t2 : Nat) (t : Task) :
    applyUpdateData body t2 (applyUpdateData body t1 t) = applyUpdateData body t2 t := by
  simp only [applyUpdateData]
  cases body.title <;> cases body.description <;> cases body.status <;> cases body.priority <;> rfl

/-- The database produced by a successful `PATCH`: the `updateData` row update
mapped over the `task` table (rows matched by id only) plus, when `tags` is
supplied, the delete-then-reinsert of the task's join rows; the `tag` table is
untouched. -/
theorem patchTask_fst (db : DB) (u tid : String) (body : UpdateTaskBody) (now : Nat)
    (tk : Task) (hv : body.isValid = true)
    (hk : (db.tasks.filter (fun t => t.id == tid && t.userId == u)).head? = some tk) :
    (patchTask db (some u) tid body now).1 =
      { tasks := db.tasks.map (fun t => if t.id == tid then applyUpdateData body now t else t)
        tags := db.tags
        taskTags :=
          match body.tags with
          | some tagIds =>
            (db.taskTags.filter (fun r => !(r.taskId == tid))) ++
              tagIds.map (fun g => { taskId := tid, tagId := g })
          | none => db.taskTags } := by
  simp only [patchTask, hv, Bool.not_true, Bool.false_eq_true, if_false, hk]
  cases body.tags <;>
    cases ((db.tasks.map fun t => if t.id == tid then applyUpdateData body now t else t).filter
        (fun t => t.id == tid)).head? <;> rfl

/-- Counting occurrences in a list that repeats one constant. -/
theorem count_map_const {α : Type} (l : List α) (cstr k : String) :
    ((l.map (fun _ => cstr)).count k) = if (cstr == k) = true then l.length else 0 := by
  induction l with
  | nil => simp
  | cons x xs ih =>
    rw [List.map_cons, List.count_cons, ih]
    by_cases h : (cstr == k) = true <;> simp [h]

/-- Row counting for the `task ⋈ task_tag` listing join: under distinct task
ids, the number of occurrences of a task id in the join equals the number of
matching `task_tag` rows when the task exists for that owner, and zero
otherwise. -/
theorem count_listing_join (tts : List TaskTagRow) (u T tid : String) (tasks : List Task)
    (hnd : (tasks.map Task.id).Nodup) :
    ((tasks.flatMap (fun t => (tts.filter (fun r =>
        t.id == r.taskId && t.userId == u && r.tagId == T)).map (fun _ => t.id))).count tid) =
      if tasks.any (fun t => t.id == tid && t.userId == u) then
        (tts.filter (fun r => r.taskId == tid && r.tagId == T)).length else 0 := by
  induction tasks with
  | nil => rfl
  | cons t ts ih =>
    simp only [List.map_cons, List.nodup_cons] at hnd
    rw [List.flatMap_cons, List.count_append, List.any_cons, count_map_const]
    by_cases hid : t.id = tid
    · have hb : (t.id == tid) = true := by simpa using hid
      have hrest : (ts.any fun t' => t'.id == tid && t'.userId == u) = false := by
        rw [List.any_eq_false]
        intro t' ht'
        simp only [Bool.and_eq_true, beq_iff_eq, not_and]
        intro h1 _
        exact hnd.1 (hid ▸ h1 ▸ List.mem_map_of_mem Task.id ht')
      rw [if_pos hb, ih hnd.2, hrest]
      simp only [Bool.false_eq_true, if_false, Nat.add_zero, hb, Bool.true_and,
        Bool.or_false]
      by_cases hu : t.userId = u
      · have hbu : (t.userId == u) = true := by simpa using hu
        have hpred : ∀ r ∈ tts,
            (t.id == r.taskId && t.userId == u && r.tagId == T) =
            (r.taskId == tid && r.tagId == T) := by
          intro r _
          by_cases hrt : r.taskId = tid
          · simp [hrt, hid, hu]
          · have hrt2 : ¬ t.id = r.taskId := fun h => hrt (h.symm.trans hid)
            have h1 : (t.id == r.taskId) = false := by simpa using hrt2
            have h2 : (r.taskId == tid) = false := by simpa using hrt
            simp [h1, h2]
        rw [List.filter_congr hpred, if_pos hbu]
      · have hbu : (t.userId == u) = false := by simpa using hu
        have hnilf : (tts.filter (fun r =>
            t.id == r.taskId && t.userId == u && r.tagId == T)) = [] := by
          refine List.filter_eq_nil_iff.mpr (fun r _ => ?_)
          simp [hu]
        rw [hnilf, hbu]
        simp
    · have hb : (t.id == tid) = false := by simpa using hid
      rw [ih hnd.2]
      simp only [hb, Bool.false_eq_true, if_false, Bool.false_and, Bool.false_or,
        Nat.zero_add]

/-- Any successful `POST /tasks` response embeds, as its `tags` array, exactly
the tag-fetch query evaluated on the resulting database at the new task's
id. -/
theorem postTasks_ok_shape (db : DB) (su : Option String) (cb : CreateTaskBody)
    (nid : String) (now : Nat) (db2 : DB) (resp : TaskWithTags)
    (h : postTasks db su cb nid now = (db2, .ok resp)) :
    resp.task.id = nid ∧ resp.tags = tagsForTask db2 nid := by
  by_cases hv : cb.isValid = true
  · have hfb : (!cb.isValid) = false := by rw [hv]; rfl
    cases su with
    | none => simp [postTasks, hfb] at h
    | some u =>
      simp only [postTasks, hfb, Bool.false_eq_true, if_false] at h
      split at h
      · split at h
        · obtain ⟨h1, h2⟩ := Prod.ext_iff.mp h
          simp only [Except.ok.injEq] at h2
          subst h1
          subst h2
          exact ⟨rfl, rfl⟩
        · obtain ⟨h1, h2⟩ := Prod.ext_iff.mp h
          simp only [Except.ok.injEq] at h2
          subst h1
          subst h2
          exact ⟨rfl, rfl⟩
      · obtain ⟨h1, h2⟩ := Prod.ext_iff.mp h
        simp only [Except.ok.injEq] at h2
        subst h1
        subst h2
        exact ⟨rfl, rfl⟩
  · have hvf : cb.isValid = false := by revert hv; cases cb.isValid <;> simp
    simp [postTasks, hvf] at h

/-- Any successful `PATCH /tasks/:id` response embeds, as its `tags` array,
exactly the tag-fetch query evaluated on the resulting database at the patched
task id, and its task's id is that id. -/
theorem patchTask_ok_shape (db : DB) (su : Option String) (tid : String)
    (body : UpdateTaskBody) (now : Nat) (db2 : DB) (resp : TaskWithTags)
    (h : patchTask db su tid body now = (db2, .ok resp)) :
    resp.task.id = tid ∧ resp.tags = tagsForTask db2 tid := by
  by_cases hv : body.isValid = true
  · have hfb : (!body.isValid) = false := by rw [hv]; rfl
    cases su with
    | none => simp [patchTask, hfb] at h
    | some u =>
      simp only [patchTask, hfb, Bool.false_eq_true, if_false] at h
      split at h
      · simp at h
      · split at h
        case _ tk2 heq2 =>
          obtain ⟨h1, h2⟩ := Prod.ext_iff.mp h
          simp only [Except.ok.injEq] at h2
          subst h1
          subst h2
          have hmem := List.mem_of_mem_head? (by rw [heq2]; exact rfl)
          have := (List.mem_filter.mp hmem).2
          exact ⟨by simpa using this, rfl⟩
        case _ heq2 =>
          simp at h
  · have hvf : body.isValid = false := by revert hv; cases body.isValid <;> simp
    simp [patchTask, hvf] at h

/-! ### Theorems settling the claims -/

/-- **C1, counterexample.**  The claim asserts that after a successful
`PATCH /tasks/:id` with a `tags` field, "a subsequent GET /tasks/:id returns
precisely the new set".  It does not: the handler for `GET /api/tasks/:id`
returns the bare task row and never queries `task_tag`, so its response is
identical on two databases whose association sets for the task differ — here
the post-PATCH state (associations exactly `[g2]`) and the same state with the
old association `[g1]` put back.  No reading of the GET response can yield the
new set. -/
theorem C1_counterexample :
    dbFixPatched.taskTags = [⟨"t", "g2"⟩] ∧
    getTaskById dbFixPatched (some "u") "t" =
      getTaskById { dbFixPatched with taskTags := [⟨"t", "g1"⟩] } (some "u") "t" ∧
    tagsForTask dbFixPatched "t" ≠
      tagsForTask { dbFixPatched with taskTags := [⟨"t", "g1"⟩] } "t" := by
  refine ⟨by decide, rfl, by decide⟩

/-- **C2, counterexample.**  The claim covers `GET /tasks/:id` among the reads
whose returned task carries a `tags` array equal to the joined set.  That
handler returns the task row with no `tags` array at all: its response is
unchanged when every `task_tag` row is removed, even though the joined set
changes. -/
theorem C2_counterexample :
    getTaskById dbFix2 (some "u") "t2" =
      getTaskById { dbFix2 with taskTags := [] } (some "u") "t2" ∧
    tagsForTask dbFix2 "t2" ≠ tagsForTask { dbFix2 with taskTags := [] } "t2" := by
  refine ⟨rfl, by decide⟩

/-- **C3, counterexample.**  `POST /tasks` with `tags: ["ghost"]` on a database
whose `tag` table is empty: the handler inserts the `task_tag` row unchecked,
but the response's `tags` array is built by an inner join with `tag`, so the
dangling id is dropped and the returned array is `[]` — not a set-match for the
supplied list `["ghost"]`. -/
theorem C3_counterexample :
    (postTasks ⟨[], [], []⟩ (some "u") ⟨"a", none, none, none, some ["ghost"]⟩ "n" 0).2 =
      .ok ⟨⟨"n", "a", none, .todo, .medium, "u", 0, 0⟩, []⟩ ∧
    "ghost" ∉ (([] : List TagRef)).map TagRef.id := by
  refine ⟨by decide, by decide⟩

/-- **C4, counterexample.**  Nothing forbids duplicate `(taskId, tagId)` rows:
`POST /tasks` with `tags: ["T","T"]` inserts two identical rows, and the
`task ⋈ task_tag` join in `GET /tasks?tag=T` then returns the task once per
row — twice, not "exactly once" as claimed (its embedded `tags` array is
likewise duplicated). -/
theorem C4_counterexample :
    getTasks dbFixDup (some "u") (some "T") =
      .ok [⟨⟨"n", "a", none, .todo, .medium, "u", 3, 3⟩, [⟨"T", "urgent"⟩, ⟨"T", "urgent"⟩]⟩,
           ⟨⟨"n", "a", none, .todo, .medium, "u", 3, 3⟩, [⟨"T", "urgent"⟩, ⟨"T", "urgent"⟩]⟩] := by
  decide

/-- **C5, code-bug evaluation.**  The DELETE handler removes only the task row
and relies on the DDL to cascade.  Under the applied migration
`drizzle/0003_create_tags.sql` (`ON DELETE NO ACTION`, modelled by
`cascade = false`) the `task_tag` row for the deleted task survives as an
orphan, contradicting the claim; under the repository's other DDL variant
(`ON DELETE cascade`, `cascade = true`) — which the handler, the spec and the
claim all assume — the row is removed as claimed.  The subsequent GET does
return NotFound in both variants. -/
theorem C5_code_bug_eval :
    (deleteTask false dbFix5 (some "u") "t5").2 = .ok () ∧
    (deleteTask false dbFix5 (some "u") "t5").1.tasks = [] ∧
    (deleteTask false dbFix5 (some "u") "t5").1.taskTags = [⟨"t5", "T5"⟩] ∧
    (deleteTask true dbFix5 (some "u") "t5").1.taskTags = [] ∧
    getTaskById (deleteTask false dbFix5 (some "u") "t5").1 (some "u") "t5" =
      .error .notFound := by
  refine ⟨by decide, by decide, by decide, by decide, by decide⟩

/-- **C6, counterexample.**  User `A`'s tag (`id "gA"`, name `"secret"`) leaks
into a response served to user `B`: the `task_tag` insert does not check tag
ownership and the tag-embedding join has no owner filter, so after `B` patches
`B`'s own task with `{tags: ["gA"]}`, `B`'s task listing embeds `A`'s tag name.
-/
theorem C6_counterexample :
    dbFixAB.tags = [⟨"gA", "secret", "A", 0⟩] ∧
    getTasks dbFixABPatched (some "B") none =
      .ok [⟨⟨"tb", "B task", none, .todo, .medium, "B", 0, 1⟩, [⟨"gA", "secret"⟩]⟩] := by
  refine ⟨by decide, by decide⟩

/-- **C10** (confirmed).  `GET /tasks?tag=` — an empty-string `tag` query
parameter — is JS-falsy, so the handler takes the unfiltered branch: the
response equals the one for no `tag` parameter at all, namely all of the
authenticated user's tasks with their tags embedded. -/
theorem C10_empty_tag_filter (db : DB) (u : String) :
    getTasks db (some u) (some "") = getTasks db (some u) none ∧
    getTasks db (some u) (some "") =
      .ok ((db.tasks.filter (fun t => t.userId == u)).map
        (fun t => { task := t, tags := tagsForTask db t.id })) :=
  ⟨rfl, rfl⟩

/-- **C7** (corrected).  Amended: a request without a valid session receives
Unauthorized (401) and no table row is returned or modified — *except* that on
the endpoints with a body validator (`POST /tasks`, `PATCH /tasks/:id`,
`POST /tags`) validation runs before the session check, so an unauthenticated
request whose body fails validation receives a 400 ValidationError instead; in
every case the database is unchanged and the response carries only the error,
no row data. -/
theorem C7_amended (db : DB) (tq : Option String) (tid nid nm : String)
    (cb : CreateTaskBody) (ub : UpdateTaskBody) (now : Nat) (c : Bool) :
    getTasks db none tq = .error .unauthorized ∧
    getTaskById db none tid = .error .unauthorized ∧
    getTags db none = .error .unauthorized ∧
    deleteTask c db none tid = (db, .error .unauthorized) ∧
    postTasks db none cb nid now =
      (db, .error (if cb.isValid then .unauthorized else .validationError)) ∧
    patchTask db none tid ub now =
      (db, .error (if ub.isValid then .unauthorized else .validationError)) ∧
    postTag db none nm nid now =
      (db, .error (if nm.length ≥ 1 then .unauthorized else .validationError)) := by
  refine ⟨rfl, rfl, rfl, rfl, ?_, ?_, ?_⟩
  · cases h : cb.isValid <;> simp [postTasks, h]
  · cases h : ub.isValid <;> simp [patchTask, h]
  · by_cases h : nm.length < 1
    · simp [postTag, h, Nat.not_le.mpr h]
    · simp [postTag, h, Nat.le_of_not_lt h]

/-- **C8** (confirmed).  A successful `PATCH /tasks/:id` performs exactly the
claimed frame update: the task table becomes the pointwise `updateData`
application to the rows with the matched id, where `applyUpdateData` keeps
every unsupplied field, never touches `id`/`userId`/`createdAt`, and
unconditionally sets `updatedAt` to the request time (even when the supplied
values equal the current ones); omitting `tags` leaves the association table
unchanged; the `tag` table is never modified. -/
theorem C8_patch_frame (db : DB) (u tid : String) (body : UpdateTaskBody) (now : Nat)
    (hv : body.isValid = true)
    (hex : ((db.tasks.filter (fun t => t.id == tid && t.userId == u)).head?).isSome) :
    (patchTask db (some u) tid body now).1.tasks =
      db.tasks.map (fun t => if t.id == tid then applyUpdateData body now t else t) ∧
    (body.tags = none → (patchTask db (some u) tid body now).1.taskTags = db.taskTags) ∧
    (patchTask db (some u) tid body now).1.tags = db.tags ∧
    (∀ t, (applyUpdateData body now t).id = t.id ∧
      (applyUpdateData body now t).userId = t.userId ∧
      (applyUpdateData body now t).createdAt = t.createdAt ∧
      (applyUpdateData body now t).updatedAt = now ∧
      (body.title = none → (applyUpdateData body now t).title = t.title) ∧
      (body.description = none → (applyUpdateData body now t).description = t.description) ∧
      (body.status = none → (applyUpdateData body now t).status = t.status) ∧
      (body.priority = none → (applyUpdateData body now t).priority = t.priority)) := by
  obtain ⟨tk, hk⟩ := Option.isSome_iff_exists.mp hex
  have hst := patchTask_fst db u tid body now tk hv hk
  refine ⟨by rw [hst], fun hnone => by rw [hst]; simp [hnone], by rw [hst], fun t => ?_⟩
  refine ⟨rfl, rfl, rfl, rfl, fun h => ?_, fun h => ?_, fun h => ?_, fun h => ?_⟩ <;>
    simp [applyUpdateData, h]

/-- Witness for `C8_patch_frame` at a concrete database. -/
theorem C8_patch_frame_witness :
    (patchTask dbFix (some "u") "t" ⟨some "Buy bread", none, none, none, none⟩ 7).1.tasks =
      dbFix.tasks.map (fun t => if t.id == "t" then
        applyUpdateData ⟨some "Buy bread", none, none, none, none⟩ 7 t else t) :=
  (C8_patch_frame dbFix "u" "t" ⟨some "Buy bread", none, none, none, none⟩ 7
    (by decide) (by decide)).1

/-- **C7, counterexample.**  `zValidator` is installed before the handler body,
so it runs before the session check: an unauthenticated `POST /tasks` whose
body fails validation (empty title) receives a 400 ValidationError, not the
claimed 401 Unauthorized.  (The database is still untouched.) -/
theorem C7_counterexample :
    postTasks dbFix none ⟨"", none, none, none, none⟩ "n" 0 =
      (dbFix, .error .validationError) ∧
    ApiError.validationError ≠ ApiError.unauthorized := by
  refine ⟨by decide, by decide⟩

/-- **C6** (corrected).  Amended: task and tag *rows* are strictly
owner-scoped — any single-task read, patch or delete of a task the caller does
not own yields NotFound with the database unmodified, the task listing returns
only the caller's task rows, and `GET /tags` returns only the caller's tags.
However (see the counterexample) the association insert never checks tag
ownership and the tag-embedding join has no owner filter, so another user's
tag id and name do appear in the caller's responses once the caller supplies
that tag id in a create/update. -/
theorem C6_amended (db : DB) (v tid : String) (ub : UpdateTaskBody) (now : Nat) (c : Bool)
    (hv : ub.isValid = true)
    (hno : ∀ t ∈ db.tasks, t.id = tid → t.userId ≠ v) :
    getTaskById db (some v) tid = .error .notFound ∧
    patchTask db (some v) tid ub now = (db, .error .notFound) ∧
    deleteTask c db (some v) tid = (db, .error .notFound) ∧
    (∀ l, getTasks db (some v) none = .ok l → ∀ x ∈ l, x.task.userId = v) ∧
    (∀ gl, getTags db (some v) = .ok gl → ∀ g ∈ gl, g.userId = v) := by
  have hfil : db.tasks.filter (fun t => t.id == tid && t.userId == v) = [] := by
    refine List.filter_eq_nil_iff.mpr (fun t ht hb => ?_)
    simp only [Bool.and_eq_true, beq_iff_eq] at hb
    exact hno t ht hb.1 hb.2
  refine ⟨?_, ?_, ?_, ?_, ?_⟩
  · simp [getTaskById, hfil]
  · simp [patchTask, hv, hfil]
  · simp [deleteTask, hfil]
  · intro l hl x hx
    simp only [getTasks, Except.ok.injEq] at hl
    subst hl
    rcases List.mem_map.mp hx with ⟨t, ht, rfl⟩
    simpa using (List.mem_filter.mp ht).2
  · intro gl hgl g hg
    simp only [getTags, Except.ok.injEq] at hgl
    subst hgl
    simpa using (List.mem_filter.mp hg).2

/-- Witness for `C6_amended`: user `A` cannot read user `B`'s task `tb`. -/
theorem C6_amended_witness :
    getTaskById dbFixAB (some "A") "tb" = .error .notFound :=
  (C6_amended dbFixAB "A" "tb" ⟨none, none, none, none, none⟩ 0 false (by decide)
    (by decide)).1

/-- **C1** (corrected).  Amended: a successful `PATCH /tasks/:id` whose body
includes `tags` replaces the association set exactly — afterwards the
`task_tag` rows for the task are exactly one row per element of the supplied
list, in list order — and a subsequent task *listing* (`GET /tasks`) embeds
precisely the new set, never a union with the old set.  (As the counterexample
shows, `GET /tasks/:id` itself cannot exhibit the new set: it returns the task
row without tags, so the claim's final clause is transferred to the listing
read, the only single-task-set read the API has.)  The tag-table hypotheses
are the `id` PRIMARY KEY constraint and the existence of the supplied tags;
without the latter the embedded set drops the dangling ids. -/
theorem C1_amended (db : DB) (u tid : String) (body : UpdateTaskBody) (now : Nat)
    (L : List String) (hv : body.isValid = true) (hL : body.tags = some L)
    (hex : ((db.tasks.filter (fun t => t.id == tid && t.userId == u)).head?).isSome)
    (hnd : (db.tags.map Tag.id).Nodup)
    (hLex : ∀ g ∈ L, db.tags.any (fun t => t.id == g)) :
    ((patchTask db (some u) tid body now).1.taskTags.filter (fun r => r.taskId == tid)) =
      L.map (fun g => ⟨tid, g⟩) ∧
    (tagsForTask (patchTask db (some u) tid body now).1 tid).map TagRef.id = L ∧
    (∀ l, getTasks (patchTask db (some u) tid body now).1 (some u) none = .ok l →
      ∀ x ∈ l, x.task.id = tid → x.tags.map TagRef.id = L) := by
  obtain ⟨tk, hk⟩ := Option.isSome_iff_exists.mp hex
  have hst := patchTask_fst db u tid body now tk hv hk
  have hrows : (patchTask db (some u) tid body now).1.taskTags =
      (db.taskTags.filter (fun r => !(r.taskId == tid))) ++
        L.map (fun g => { taskId := tid, tagId := g }) := by
    rw [hst, hL]
  have hnewfil : ((L.map (fun g => ({ taskId := tid, tagId := g } : TaskTagRow))).filter
      (fun r => r.taskId == tid)) = L.map (fun g => { taskId := tid, tagId := g }) := by
    refine List.filter_eq_self.mpr (fun r hr => ?_)
    rcases List.mem_map.mp hr with ⟨g, _, rfl⟩
    simp
  have hfilter : ((patchTask db (some u) tid body now).1.taskTags.filter
      (fun r => r.taskId == tid)) = L.map (fun g => { taskId := tid, tagId := g }) := by
    rw [hrows, List.filter_append, List.filter_filter, hnewfil]
    have : (db.taskTags.filter (fun r => r.taskId == tid && !(r.taskId == tid))) = [] := by
      refine List.filter_eq_nil_iff.mpr (fun r _ hb => ?_)
      simp [Bool.and_not_self] at hb
    rw [this, List.nil_append]
  have htags : (patchTask db (some u) tid body now).1.tags = db.tags := by rw [hst]
  have hembed : (tagsForTask (patchTask db (some u) tid body now).1 tid).map TagRef.id = L := by
    rw [tagsForTask, hfilter, htags, List.flatMap_map]
    have h1 := flatMap_map_eq_filter L
      (fun g => (db.tags.filter (fun t => t.id == g)).map
        (fun t => ({ id := t.id, name := t.name } : TagRef)))
      TagRef.id (fun g => db.tags.any (fun t => t.id == g))
      (fun g _ => by
        rw [List.map_map]
        have := filter_tagId_of_nodup db.tags g hnd
        simpa using this)
    rw [h1, List.filter_eq_self.mpr hLex]
  refine ⟨hfilter, hembed, fun l hl x hx hxid => ?_⟩
  simp only [getTasks, Except.ok.injEq] at hl
  subst hl
  rcases List.mem_map.mp hx with ⟨t, _, rfl⟩
  have hxid' : t.id = tid := hxid
  show (tagsForTask (patchTask db (some u) tid body now).1 t.id).map TagRef.id = L
  rw [hxid']
  exact hembed

/-- Witness for `C1_amended`: `PATCH /tasks/t` with `{tags: ["g2"]}` on
`dbFix`. -/
theorem C1_amended_witness :
    ((patchTask dbFix (some "u") "t" ⟨none, none, none, none, some ["g2"]⟩ 5).1.taskTags.filter
        (fun r => r.taskId == "t")) = [⟨"t", "g2"⟩] ∧
    (tagsForTask (patchTask dbFix (some "u") "t"
        ⟨none, none, none, none, some ["g2"]⟩ 5).1 "t").map TagRef.id = ["g2"] := by
  have h := C1_amended dbFix "u" "t" ⟨none, none, none, none, some ["g2"]⟩ 5 ["g2"]
    (by decide) rfl (by decide) (by decide) (by decide)
  exact ⟨h.1, h.2.1⟩

/-- **C3** (corrected).  Amended: the `tags` array of the task returned by
`POST /tasks` lists, in order, exactly those supplied tag ids that exist in
the `tag` table (so: exactly the supplied list — hence the supplied set —
whenever every supplied id exists, and the empty set when the list is omitted
or empty); supplied ids with no `tag` row are inserted into `task_tag` but
dropped from the response by its inner join, as the counterexample shows.
`newId` freshness reflects `crypto.randomUUID()`. -/
theorem C3_amended (db : DB) (u : String) (body : CreateTaskBody) (newId : String) (now : Nat)
    (hv : body.isValid = true)
    (hfresh : ∀ r ∈ db.taskTags, r.taskId ≠ newId)
    (hnd : (db.tags.map Tag.id).Nodup) :
    ∃ resp, (postTasks db (some u) body newId now).2 = .ok resp ∧
      resp.tags.map TagRef.id =
        (body.tags.getD []).filter (fun g => db.tags.any (fun t => t.id == g)) := by
  have holdnil : db.taskTags.filter (fun r => r.taskId == newId) = [] :=
    List.filter_eq_nil_iff.mpr (fun r hr hb => hfresh r hr (by simpa using hb))
  have hfb : (!body.isValid) = false := by rw [hv]; rfl
  have hjoin : ∀ L : List String,
      ((L.map (fun g => ({ taskId := newId, tagId := g } : TaskTagRow))).flatMap (fun r =>
        (db.tags.filter (fun g => g.id == r.tagId)).map
          (fun g => ({ id := g.id, name := g.name } : TagRef)))).map TagRef.id =
        L.filter (fun g => db.tags.any (fun t => t.id == g)) := by
    intro L
    rw [List.flatMap_map]
    refine flatMap_map_eq_filter _ _ _ _ (fun g _ => ?_)
    rw [List.map_map]
    have := filter_tagId_of_nodup db.tags g hnd
    simpa using this
  rcases hbt : body.tags with - | L
  · refine ⟨_, by simp only [postTasks, hfb, Bool.false_eq_true, if_false, hbt]; rfl, ?_⟩
    simp only [tagsForTask, holdnil, List.flatMap_nil, List.map_nil, Option.getD_none,
      List.filter_nil]
  · rcases L with - | ⟨g0, L'⟩
    · refine ⟨_, by simp only [postTasks, hfb, Bool.false_eq_true, if_false, hbt]; rfl, ?_⟩
      simp only [tagsForTask, Option.getD_some, List.filter_nil, List.length_nil]
      simp [holdnil]
    · refine ⟨_, by simp only [postTasks, hfb, Bool.false_eq_true, if_false, hbt]; rfl, ?_⟩
      simp only [tagsForTask, Option.getD_some, List.length_cons]
      have hcond : (L'.length + 1 != 0) = true := by simp
      rw [if_pos hcond]
      show (((db.taskTags ++ (g0 :: L').map
            (fun g => ({ taskId := newId, tagId := g } : TaskTagRow))).filter
          (fun r : TaskTagRow => r.taskId == newId)).flatMap (fun r : TaskTagRow =>
            (db.tags.filter (fun g : Tag => g.id == r.tagId)).map
              (fun g : Tag => ({ id := g.id, name := g.name } : TagRef)))).map TagRef.id =
        (g0 :: L').filter (fun g => db.tags.any (fun t => t.id == g))
      have hself : (((g0 :: L').map
          (fun g => ({ taskId := newId, tagId := g } : TaskTagRow))).filter
          (fun r => r.taskId == newId)) =
          (g0 :: L').map (fun g => { taskId := newId, tagId := g }) := by
        refine List.filter_eq_self.mpr (fun r hr => ?_)
        rcases List.mem_map.mp hr with ⟨g, _, rfl⟩
        simp
      rw [List.filter_append, holdnil, List.nil_append, hself, hjoin]

/-- Witness for `C3_amended`: creating a task with `tags: ["g1","g2"]` on
`dbFix` (both tags exist) returns exactly those ids. -/
theorem C3_amended_witness :
    ∃ resp, (postTasks dbFix (some "u")
        ⟨"a", none, none, none, some ["g1", "g2"]⟩ "n" 9).2 = .ok resp ∧
      resp.tags.map TagRef.id =
        ((some ["g1", "g2"] : Option (List String)).getD []).filter
          (fun g => dbFix.tags.any (fun t => t.id == g)) :=
  C3_amended dbFix "u" ⟨"a", none, none, none, some ["g1", "g2"]⟩ "n" 9
    (by decide) (by decide) (by decide)

/-- **C9** (confirmed).  Retrying is safe: performing the same DELETE twice in
a row leaves all three tables exactly as one DELETE does (the second call hits
the NotFound branch and modifies nothing), and performing the same
tags-carrying PATCH twice leaves the tables exactly as performing it once at
the second request's time (`t1 = t2` gives literal idempotence): the field
update overwrites the same supplied fields, and the tag replace
deletes-then-reinserts the same rows.  Stated for any session and any task id,
existing or not. -/
theorem C9_idempotent (db : DB) (su : Option String) (tid : String) (body : UpdateTaskBody)
    (t1 t2 : Nat) (c : Bool) (hsome : body.tags.isSome = true) :
    (patchTask (patchTask db su tid body t1).1 su tid body t2).1 =
      (patchTask db su tid body t2).1 ∧
    (deleteTask c (deleteTask c db su tid).1 su tid).1 = (deleteTask c db su tid).1 := by
  obtain ⟨L, hL⟩ := Option.isSome_iff_exists.mp hsome
  constructor
  · cases hv : body.isValid with
    | false =>
      have h0 : (patchTask db su tid body t1).1 = db := by simp [patchTask, hv]
      rw [h0]
    | true =>
      cases su with
      | none =>
        have h0 : (patchTask db none tid body t1).1 = db := by simp [patchTask, hv]
        rw [h0]
      | some u =>
        cases hk : (db.tasks.filter (fun t => t.id == tid && t.userId == u)).head? with
        | none =>
          have h0 : (patchTask db (some u) tid body t1).1 = db := by
            simp [patchTask, hv, hk]
          rw [h0]
        | some tk =>
          have hpres : ∀ (nw : Nat) (t : Task),
              (((if t.id == tid then applyUpdateData body nw t else t).id == tid) &&
                ((if t.id == tid then applyUpdateData body nw t else t).userId == u)) =
              ((t.id == tid) && (t.userId == u)) := by
            intro nw t
            by_cases h : t.id = tid
            · rw [if_pos (by simpa using h)]; rfl
            · rw [if_neg (by simpa using h)]
          have htk_mem : tk ∈ db.tasks.filter (fun t => t.id == tid && t.userId == u) :=
            List.mem_of_mem_head? (by rw [hk]; exact rfl)
          have htk : (tk.id == tid && tk.userId == u) = true :=
            (List.mem_filter.mp htk_mem).2
          have htkid : (tk.id == tid) = true := (Bool.and_eq_true .. ▸ htk).1
          have hst1 := patchTask_fst db u tid body t1 tk hv hk
          have h2 : ((patchTask db (some u) tid body t1).1.tasks.filter
              (fun t => t.id == tid && t.userId == u)).head? =
              some (applyUpdateData body t1 tk) := by
            rw [hst1]
            show ((db.tasks.map (fun t => if t.id == tid then applyUpdateData body t1 t
              else t)).filter (fun t => t.id == tid && t.userId == u)).head? = _
            rw [filter_map_comm _ _ _ (hpres t1), List.head?_map, hk]
            show some (if (tk.id == tid) = true then applyUpdateData body t1 tk else tk) = _
            rw [if_pos htkid]
          have hst2 := patchTask_fst (patchTask db (some u) tid body t1).1 u tid body t2
            (applyUpdateData body t1 tk) hv h2
          have hstR := patchTask_fst db u tid body t2 tk hv hk
          rw [hst1] at hst2
          rw [hst1, hst2, hstR]
          simp only [hL]
          congr 1
          · show (db.tasks.map (fun t => if t.id == tid then applyUpdateData body t1 t
                else t)).map (fun t => if t.id == tid then applyUpdateData body t2 t else t) =
              db.tasks.map (fun t => if t.id == tid then applyUpdateData body t2 t else t)
            rw [List.map_map]
            refine List.map_congr_left (fun t _ => ?_)
            simp only [Function.comp_apply]
            by_cases h : t.id = tid
            · have hb : (t.id == tid) = true := by simpa using h
              have hb2 : ((applyUpdateData body t1 t).id == tid) = true := hb
              simp only [hb, if_true, hb2, applyUpdateData_idem]
            · have hb : (t.id == tid) = false := by simpa using h
              simp only [hb, Bool.false_eq_true, if_false]
          · show ((db.taskTags.filter (fun r => !(r.taskId == tid)) ++
                L.map (fun g => ({ taskId := tid, tagId := g } : TaskTagRow))).filter
                  (fun r => !(r.taskId == tid))) ++
                L.map (fun g => ({ taskId := tid, tagId := g } : TaskTagRow)) =
              (db.taskTags.filter (fun r => !(r.taskId == tid))) ++
                L.map (fun g => ({ taskId := tid, tagId := g } : TaskTagRow))
            rw [List.filter_append, List.filter_filter]
            have hq : (db.taskTags.filter (fun r =>
                !(r.taskId == tid) && !(r.taskId == tid))) =
                db.taskTags.filter (fun r => !(r.taskId == tid)) :=
              List.filter_congr (fun r _ => Bool.and_self ..)
            have hnewnil : ((L.map (fun g => ({ taskId := tid, tagId := g } : TaskTagRow))).filter
                (fun r => !(r.taskId == tid))) = [] := by
              refine List.filter_eq_nil_iff.mpr (fun r hr => ?_)
              rcases List.mem_map.mp hr with ⟨g, _, rfl⟩
              simp
            rw [hq, hnewnil, List.append_nil]
  · cases su with
    | none => rfl
    | some u =>
      cases hk : (db.tasks.filter (fun t => t.id == tid && t.userId == u)).head? with
      | none =>
        have h0 : (deleteTask c db (some u) tid).1 = db := by simp [deleteTask, hk]
        rw [h0]
        exact h0
      | some tk =>
        have hD : (deleteTask c db (some u) tid).1 =
            { tasks := db.tasks.filter (fun t => !(t.id == tid))
              tags := db.tags
              taskTags := if c then db.taskTags.filter (fun r => !(r.taskId == tid))
                else db.taskTags } := by
          simp only [deleteTask, hk]
          cases c <;> rfl
        rw [hD]
        have hnil : ((db.tasks.filter (fun t => !(t.id == tid))).filter
            (fun t => t.id == tid && t.userId == u)) = [] := by
          rw [List.filter_filter]
          refine List.filter_eq_nil_iff.mpr (fun t _ hb => ?_)
          simp only [Bool.and_eq_true, Bool.not_eq_true', beq_iff_eq,
            beq_eq_false_iff_ne] at hb
          exact hb.2 hb.1.1
        simp [deleteTask, hnil]

/-- Witness for `C9_idempotent`: repeating the tag-replace PATCH and the DELETE
on `dbFix`. -/
theorem C9_idempotent_witness :
    (patchTask (patchTask dbFix (some "u") "t"
        ⟨none, none, none, none, some ["g2"]⟩ 5).1 (some "u") "t"
        ⟨none, none, none, none, some ["g2"]⟩ 6).1 =
      (patchTask dbFix (some "u") "t" ⟨none, none, none, none, some ["g2"]⟩ 6).1 ∧
    (deleteTask true (deleteTask true dbFix (some "u") "t").1 (some "u") "t").1 =
      (deleteTask true dbFix (some "u") "t").1 :=
  C9_idempotent dbFix (some "u") "t" ⟨none, none, none, none, some ["g2"]⟩ 5 6 true rfl

/-- **C2** (corrected).  Amended: for the reads that embed tags — the
`GET /tasks` listing and the task objects returned by `POST /tasks` and
`PATCH /tasks/:id` — the returned task's `tags` array contains exactly the
tags joined to that task via `task_tag` rows of the resulting state (a `ref`
is in the array iff some `task_tag` row links the task to a `tag` row
projecting to it), however those rows were set.  `GET /tasks/:id`, by
contrast, returns the task row with no `tags` array at all: its response is
invariant under arbitrary replacement of the whole `task_tag` table. -/
theorem C2_amended (db : DB) (u tid nid : String) (tq : Option String)
    (cb : CreateTaskBody) (ub : UpdateTaskBody) (now : Nat) (rows : List TaskTagRow) :
    (∀ l, getTasks db (some u) tq = .ok l → ∀ x ∈ l, ∀ ref,
        (ref ∈ x.tags ↔ JoinedTag db x.task.id ref)) ∧
    (∀ db2 resp, postTasks db (some u) cb nid now = (db2, .ok resp) → ∀ ref,
        (ref ∈ resp.tags ↔ JoinedTag db2 resp.task.id ref)) ∧
    (∀ db2 resp, patchTask db (some u) tid ub now = (db2, .ok resp) → ∀ ref,
        (ref ∈ resp.tags ↔ JoinedTag db2 resp.task.id ref)) ∧
    getTaskById { db with taskTags := rows } (some u) tid = getTaskById db (some u) tid := by
  refine ⟨?_, ?_, ?_, rfl⟩
  · intro l hl x hx ref
    simp only [getTasks, Except.ok.injEq] at hl
    subst hl
    rcases List.mem_map.mp hx with ⟨t, _, rfl⟩
    exact mem_tagsForTask db t.id ref
  · intro db2 resp h ref
    obtain ⟨hid, htags⟩ := postTasks_ok_shape db (some u) cb nid now db2 resp h
    rw [htags, hid]
    exact mem_tagsForTask db2 nid ref
  · intro db2 resp h ref
    obtain ⟨hid, htags⟩ := patchTask_ok_shape db (some u) tid ub now db2 resp h
    rw [htags, hid]
    exact mem_tagsForTask db2 tid ref

/-- Witness for `C2_amended`: on `dbFix`, the listing's embedded tag
`⟨g1, one⟩` is a joined tag, and the id-read ignores the `task_tag` table. -/
theorem C2_amended_witness :
    JoinedTag dbFix "t" ⟨"g1", "one"⟩ ∧
    getTaskById { dbFix with taskTags := [] } (some "u") "t" =
      getTaskById dbFix (some "u") "t" := by
  have h := C2_amended dbFix "u" "t" "n" none
    ⟨"a", none, none, none, none⟩ ⟨none, none, none, none, none⟩ 0 []
  refine ⟨?_, h.2.2.2⟩
  exact (h.1 [⟨tkFix, [⟨"g1", "one"⟩]⟩] rfl ⟨tkFix, [⟨"g1", "one"⟩]⟩ (by decide)
    ⟨"g1", "one"⟩).mp (by decide)

/-- **C4** (corrected).  Amended: `GET /tasks?tag=T` returns the caller's
tasks that have a `task_tag` row with tag id `T`, each task appearing once
*per matching association row* — hence exactly once when the `(taskId, T)`
rows are duplicate-free, which no constraint enforces (see the
counterexample) — and only the caller's tasks appear; each returned entry
embeds the task's full joined tag set, not only `T`.  Stated as: the
occurrence count of each task id in the response equals the number of
matching `task_tag` rows (when that task exists for the caller, zero
otherwise), under the `task.id` PRIMARY KEY constraint. -/
theorem C4_amended (db : DB) (u T : String) (l : List TaskWithTags)
    (hT : T.isEmpty = false)
    (hnd : (db.tasks.map Task.id).Nodup)
    (hl : getTasks db (some u) (some T) = .ok l) :
    (∀ tid, (l.map (fun x => x.task.id)).count tid =
      (if db.tasks.any (fun t => t.id == tid && t.userId == u) then
        (db.taskTags.filter (fun r => r.taskId == tid && r.tagId == T)).length else 0)) ∧
    (∀ x ∈ l, x.task.userId = u ∧ ∀ ref, (ref ∈ x.tags ↔ JoinedTag db x.task.id ref)) := by
  simp only [getTasks, hT, Bool.false_eq_true, if_false, Except.ok.injEq] at hl
  subst hl
  constructor
  · intro tid
    have heq : (((db.tasks.flatMap (fun t => (db.taskTags.filter (fun r =>
        t.id == r.taskId && t.userId == u && r.tagId == T)).map (fun _ => t))).map
          (fun t => ({ task := t, tags := tagsForTask db t.id } : TaskWithTags))).map
            (fun x => x.task.id)) =
        db.tasks.flatMap (fun t => (db.taskTags.filter (fun r =>
          t.id == r.taskId && t.userId == u && r.tagId == T)).map (fun _ => t.id)) := by
      simp only [List.map_map, List.map_flatMap, Function.comp_def]
    rw [heq]
    exact count_listing_join db.taskTags u T tid db.tasks hnd
  · intro x hx
    rcases List.mem_map.mp hx with ⟨t, ht, rfl⟩
    refine ⟨?_, fun ref => mem_tagsForTask db t.id ref⟩
    rcases List.mem_flatMap.mp ht with ⟨t', ht', htm⟩
    rcases List.mem_map.mp htm with ⟨r, hr, rfl⟩
    have hp := (List.mem_filter.mp hr).2
    simp only [Bool.and_eq_true, beq_iff_eq] at hp
    exact hp.1.2

/-- Witness for `C4_amended`: on `dbFix`, filtering by tag `g1` lists task `t`
exactly once — once per matching association row. -/
theorem C4_amended_witness :
    (([⟨tkFix, [⟨"g1", "one"⟩]⟩] : List TaskWithTags).map (fun x => x.task.id)).count "t" =
      (if dbFix.tasks.any (fun t => t.id == "t" && t.userId == "u") then
        (dbFix.taskTags.filter (fun r => r.taskId == "t" && r.tagId == "g1")).length
      else 0) :=
  (C4_amended dbFix "u" "g1" [⟨tkFix, [⟨"g1", "one"⟩]⟩] (by decide) (by decide)
    (by decide)).1 "t"

end TM
